import Mathlib

/-
Verification of serve.py: a small HTTP server that serves the highest
numbered file matching the pattern index<digits>.html from the current
directory, with a background watcher that switches to newer files and
refreshes the stored modification time.

Modelling conventions:
  - filenames are Lean String values (directory listings are List String);
  - a filesystem snapshot is a function String to Option Nat giving each
    existing file its modification time (none means the file is absent);
    modification times are modelled as Nat, since the program only stores
    and compares them for equality, never does arithmetic on them;
  - Python exceptions are modelled with Except String;
  - the regular expression compiled on line 25 of serve.py,
    anchored-start index (digits group) dot html anchored-end, is embedded
    directly: note that the Python end anchor also matches just before a
    single newline at the end of the string, so the embedding accepts an
    optional trailing newline character; the digit class is modelled as
    the ASCII digits 0..9 (the Python digit class also covers other
    Unicode decimal digits, which the Python int conversion accepts with
    the same numeric value, so the claims at issue do not distinguish
    the two).
-/

namespace SatSim

/-- The configured filename stem, FILE_PREFIX = "index" (serve.py line 11),
as a character list. -/
def filePrefixChars : List Char := "index".data

/-- The configured filename extension, FILE_SUFFIX = ".html"
(serve.py line 12), as a character list. -/
def fileSuffixChars : List Char := ".html".data

/-- Strip an expected leading character sequence; none when the input does
not start with it.  Used to embed the anchored literal stem of the regex. -/
def dropPrefixChars : List Char → List Char → Option (List Char)
  | [], s => some s
  | _ :: _, [] => none
  | p :: ps, c :: cs => if p = c then dropPrefixChars ps cs else none

/-- Embedding of pattern.match(filename).group(1) for the regex of
serve.py line 25: anchored at the start, the literal stem, a group of one
or more digits, the literal escaped extension, and the end anchor.  The
greedy digit group is a maximal munch: a shorter munch would leave a digit
where the dot of the extension must stand, so maximal munch is complete.
The Python end anchor also matches just before one trailing newline, hence
the second accepted tail.  Returns the captured digit group. -/
def reMatchGroup (s : List Char) : Option (List Char) :=
  match dropPrefixChars filePrefixChars s with
  | none => none
  | some rest =>
    let ds := rest.takeWhile Char.isDigit
    let tail := rest.dropWhile Char.isDigit
    if ds = [] then none
    else if tail = fileSuffixChars ∨ tail = fileSuffixChars ++ ['\n'] then some ds
    else none

/-- Embedding of the Python int conversion as applied on serve.py line 32:
succeeds exactly on a nonempty all-digit string, returning its decimal
value.  (The real conversion accepts a superset of these strings; only
digit groups produced by the regex ever reach it.) -/
def pyInt (ds : List Char) : Option Nat :=
  if ds ≠ [] ∧ ds.all Char.isDigit then
    some (ds.foldl (fun acc c => 10 * acc + (c.toNat - Char.toNat '0')) 0)
  else none

/-- The parsed version number of a filename: the digit group captured by
the regex, converted to a number; none when the filename does not match. -/
def version (s : String) : Option Nat :=
  match reMatchGroup s.data with
  | some g => pyInt g
  | none => none

/-- The body of the loop of find_highest_version_file (serve.py lines
27-38), acting on the accumulator (max_num, target_filename).  max_num is
an Int because it starts at -1; the try/except ValueError branch is the
inner none case, which leaves the accumulator unchanged (continue). -/
def step (acc : Int × Option String) (filename : String) : Int × Option String :=
  match reMatchGroup filename.data with
  | some g =>
    match pyInt g with
    | some num => if (num : Int) > acc.1 then ((num : Int), some filename) else acc
    | none => acc
  | none => acc

/-- Embedding of find_highest_version_file (serve.py lines 16-40) over an
explicit directory listing: fold the loop body over the listing starting
from max_num = -1, target_filename = None, and return the target. -/
def find_highest_version_file (listing : List String) : Option String :=
  (listing.foldl step (-1, none)).2

/-- Merge of two optional version numbers by maximum (helper for the
specification-side characterisation of the selector). -/
def omax : Option Nat → Option Nat → Option Nat
  | none, r => r
  | some v, none => some v
  | some v, some m => some (max v m)

/-- The maximum parsed version number over the matching entries of a
listing; none when no entry matches. -/
def maxVer : List String → Option Nat
  | [] => none
  | f :: rest => omax (version f) (maxVer rest)

/-- Specification-side rendering of the selection rule, following the
spec wording: return the first entry in listing order whose parsed
integer equals the maximum parsed integer over all matching entries, or
none when no entry matches. -/
def selectHighestVersionSpec (listing : List String) : Option String :=
  match maxVer listing with
  | none => none
  | some m => listing.find? (fun f => version f == some m)

/-- Modelled from the claim and spec wording: a filename matching the
exact pattern stem-digits-extension, with nothing else before, between or
after (in particular no trailing newline).  Used to compare the strict
reading of the spec with the behaviour of the compiled regex. -/
def matchesExactPattern (s : String) : Bool :=
  match dropPrefixChars filePrefixChars s.data with
  | none => false
  | some rest =>
    decide (rest.takeWhile Char.isDigit ≠ []) &&
    decide (rest.dropWhile Char.isDigit = fileSuffixChars)

/-- The shared serving state: the class attributes target_file and
current_file_mtime of CustomHTTPRequestHandler (serve.py lines 48-49),
always read and written under the single shared lock once the server and
the watcher are running. -/
structure ServingState where
  target_file : String
  current_file_mtime : Nat
  deriving DecidableEq

/-- Embedding of os.path.getmtime against a filesystem snapshot: the
modification time when the file exists, a raised FileNotFoundError
otherwise. -/
def getmtime (fs : String → Option Nat) (f : String) : Except String Nat :=
  match fs f with
  | some t => Except.ok t
  | none => Except.error ("FileNotFoundError: " ++ f)

/-- Embedding of os.path.exists against a filesystem snapshot. -/
def path_exists (fs : String → Option Nat) (f : String) : Bool :=
  (fs f).isSome

/-- The elif arm of the watcher body (serve.py lines 83-88): when the
current target still exists, compare its live modification time with the
stored one and refresh the stored value, printing the modified
notification, when they differ. -/
def tickCheckModified (fs : String → Option Nat) (s : ServingState) :
    Except String (ServingState × List String) :=
  if path_exists fs s.target_file then
    match getmtime fs s.target_file with
    | Except.ok current_mtime =>
      if current_mtime ≠ s.current_file_mtime then
        Except.ok ({ s with current_file_mtime := current_mtime },
          ["File " ++ s.target_file ++ " has been modified. Reloading..."])
      else Except.ok (s, [])
    | Except.error e => Except.error e
  else Except.ok (s, [])

/-- One body of the watcher loop of check_for_updates (serve.py lines
74-88), from the selector call through the locked region.  The listing
parameter is the os.listdir snapshot consumed by the selector; the fs
parameter is the filesystem as seen by the later os.path calls (the two
may differ, exactly as the two system calls may race in the source).  The
returned list collects the printed notification lines; an uncaught Python
exception is the error case. -/
def tick (listing : List String) (fs : String → Option Nat) (s : ServingState) :
    Except String (ServingState × List String) :=
  match find_highest_version_file listing with
  | some new_file =>
    if new_file = s.target_file then tickCheckModified fs s
    else
      match getmtime fs new_file with
      | Except.ok mt =>
        Except.ok ({ target_file := new_file, current_file_mtime := mt },
          ["New file detected: " ++ new_file ++ ". Reloading..."])
      | Except.error e => Except.error e
  | none => tickCheckModified fs s

/-- The state transformation performed by one successful watcher tick;
on the error case (where the source thread would die) the state is left
as it was, a case excluded by hypothesis wherever this function is used. -/
def tickUpdate (listing : List String) (fs : String → Option Nat)
    (s : ServingState) : ServingState :=
  match tick listing fs s with
  | Except.ok (s2, _) => s2
  | Except.error _ => s

/-- Atomic events of the interleaving model: one watcher tick holding the
lock for its whole locked region (serve.py lines 77-88), or one root-path
request reading the shared state under the same lock (lines 56-61). -/
inductive Event
  | tickEv
  | reqEv
  deriving DecidableEq

/-- Number of watcher ticks in a schedule. -/
def numTicks : List Event → Nat
  | [] => 0
  | Event.tickEv :: es => numTicks es + 1
  | Event.reqEv :: es => numTicks es

/-- Execution of a schedule of atomic events from an initial state: a
tick applies the given state transformation, a request records the state
pair it observes under the lock.  Returns the observations in schedule
order. -/
def run (next : ServingState → ServingState) :
    ServingState → List Event → List ServingState
  | _, [] => []
  | s, Event.tickEv :: es => run next (next s) es
  | s, Event.reqEv :: es => s :: run next s es

/-- Outcome of one GET request as visible at the layer modelled here. -/
inductive Response
  | notFound (message : String)
  | serveFile (path : String)
  | delegate (path : String)
  deriving DecidableEq

/-- Embedding of CustomHTTPRequestHandler.do_GET (serve.py lines 52-64)
against a filesystem snapshot.  The result triple is the shared serving
state after the call, the effective request path (self.path after the
possible rewrite on line 58), and the response: a 404 naming the missing
target (line 60), the target served via the parent class, or the
unchanged path delegated to the parent class. -/
def do_GET (fs : String → Option Nat) (s : ServingState) (path : String) :
    ServingState × String × Response :=
  if path = "/" then
    if path_exists fs s.target_file then
      (s, s.target_file, Response.serveFile s.target_file)
    else
      (s, path, Response.notFound ("File Not Found: " ++ s.target_file))
  else
    (s, path, Response.delegate path)

/-- A sequence of GET requests handled one after the other with no
intervening watcher tick, threading the shared serving state through. -/
def serveMany (fs : String → Option Nat) :
    ServingState → List String → ServingState × List Response
  | s, [] => (s, [])
  | s, p :: ps =>
    let r := do_GET fs s p
    let rest := serveMany fs r.1 ps
    (rest.1, r.2.2 :: rest.2)

/-- Observable outcome of the main block: the process exited with a code,
or it is serving forever; the flag records whether the TCP server was
bound. -/
inductive MainOutcome
  | exited (code : Nat) (bound : Bool)
  | serving (bound : Bool)
  deriving DecidableEq

/-- Embedding of the main block (serve.py lines 91-115): select the
initial file, exit with code 1 before binding when none matches,
otherwise record the initial state, bind the server and serve until an
interrupt, which exits with code 0.  The second component collects the
printed status lines (quotation marks of the source messages elided). -/
def mainRun (listing : List String) (fs : String → Option Nat)
    (interrupted : Bool) : Except String (MainOutcome × List String) :=
  match find_highest_version_file listing with
  | none =>
    Except.ok (MainOutcome.exited 1 false,
      ["Error: Could not find any files matching index*.html in the current directory."])
  | some file_to_serve =>
    match getmtime fs file_to_serve with
    | Except.error e => Except.error e
    | Except.ok _ =>
      let logs := ["Serving " ++ file_to_serve ++ " at http://localhost:8000",
                   "Press Ctrl+C to stop the server."]
      if interrupted then
        Except.ok (MainOutcome.exited 0 true, logs ++ ["Server stopped."])
      else
        Except.ok (MainOutcome.serving true, logs)

/-! Helper lemmas about the selector. -/

lemma step_eq_version (acc : Int × Option String) (f : String) :
    step acc f = match version f with
      | some v => if (v : Int) > acc.1 then ((v : Int), some f) else acc
      | none => acc := by
  unfold step version
  cases reMatchGroup f.data with
  | none => rfl
  | some g => cases pyInt g <;> rfl

lemma maxVer_cons (f : String) (rest : List String) :
    maxVer (f :: rest) = omax (version f) (maxVer rest) := rfl

/-- The fold of the loop body, started from an arbitrary accumulator,
returns the stored target unless some matching entry beats the stored
maximum, in which case it returns the first entry attaining the maximum
version of the listing. -/
lemma foldl_step_eq (L : List String) :
    ∀ (m : Int) (t : Option String),
      (L.foldl step (m, t)).2 =
        match maxVer L with
        | none => t
        | some M => if m < (M : Int) then L.find? (fun f => version f == some M) else t := by
  induction L with
  | nil => intro m t; rfl
  | cons f rest ih =>
    intro m t
    rw [List.foldl_cons, step_eq_version]
    cases hv : version f with
    | none =>
      rw [maxVer_cons, hv]
      show (rest.foldl step (m, t)).2 = _
      rw [ih]
      cases hM : maxVer rest with
      | none => rfl
      | some M =>
        simp only [omax]
        by_cases hm : m < (M : Int)
        · simp only [hm, if_true]
          rw [List.find?_cons_of_neg]
          simp [hv]
        · simp [hm]
    | some v =>
      rw [maxVer_cons, hv]
      by_cases hvm : (v : Int) > m
      · simp only [hvm, if_true]
        show (rest.foldl step ((v : Int), some f)).2 = _
        rw [ih]
        cases hM : maxVer rest with
        | none =>
          simp only [omax]
          have : m < (v : Int) := hvm
          simp only [this, if_true]
          rw [List.find?_cons_of_pos]
          simp [hv]
        | some M =>
          simp only [omax]
          have hmmax : m < ((max v M : Nat) : Int) := by
            have : (v : Int) ≤ ((max v M : Nat) : Int) := by
              push_cast; omega
            omega
          simp only [hmmax, if_true]
          by_cases hvM : (v : Int) < (M : Int)
          · have hmax : max v M = M := by omega
            rw [hmax]
            simp only [hvM, if_true]
            rw [List.find?_cons_of_neg]
            simp only [hv]
            have : v ≠ M := by omega
            simp [this]
          · have hmax : max v M = v := by omega
            rw [hmax]
            simp only [hvM, if_false]
            rw [List.find?_cons_of_pos]
            simp [hv]
      · simp only [hvm, if_false]
        show (rest.foldl step (m, t)).2 = _
        rw [ih]
        cases hM : maxVer rest with
        | none =>
          simp only [omax]
          have : ¬ m < (v : Int) := hvm
          simp [this]
        | some M =>
          simp only [omax]
          by_cases hmM : m < (M : Int)
          · have hmax : max v M = M := by omega
            rw [hmax]
            have hmmax : m < ((M : Nat) : Int) := hmM
            simp only [hmM, hmmax, if_true]
            rw [List.find?_cons_of_neg]
            simp only [hv]
            have : v ≠ M := by omega
            simp [this]
          · have hmmax : ¬ m < ((max v M : Nat) : Int) := by
              push_cast
              push_cast at hmM hvm
              omega
            simp only [gt_iff_lt] at hvm
            simp [hmM, hmmax, hvm]

/-- The selector agrees with the specification-side rendering: it returns
the first entry in listing order attaining the maximum parsed version,
and none when no entry matches. -/
lemma find_eq_spec (L : List String) :
    find_highest_version_file L = selectHighestVersionSpec L := by
  unfold find_highest_version_file selectHighestVersionSpec
  rw [foldl_step_eq]
  cases hM : maxVer L with
  | none => rfl
  | some M =>
    have : (-1 : Int) < (M : Int) := by omega
    simp [this]

lemma omax_left_comm (a b r : Option Nat) :
    omax a (omax b r) = omax b (omax a r) := by
  cases a <;> cases b <;> cases r <;>
    simp [omax, Nat.max_comm, Nat.max_left_comm]

/-- The maximum parsed version is invariant under permutation of the
listing. -/
lemma maxVer_perm {L1 L2 : List String} (hp : L1.Perm L2) :
    maxVer L1 = maxVer L2 := by
  induction hp with
  | nil => rfl
  | cons x _ ih => simp [maxVer_cons, ih]
  | swap x y l => simp [maxVer_cons, omax_left_comm]
  | trans _ _ ih1 ih2 => exact ih1.trans ih2

/-- When all entries satisfying a predicate are equal, the first match is
invariant under permutation. -/
lemma find?_perm_of_unique {p : String → Bool} {L1 L2 : List String}
    (hp : L1.Perm L2)
    (hu : ∀ a ∈ L1, ∀ b ∈ L1, p a → p b → a = b) :
    L1.find? p = L2.find? p := by
  cases h1 : L1.find? p with
  | none =>
    rw [List.find?_eq_none] at h1
    symm
    rw [List.find?_eq_none]
    intro x hx
    exact h1 x (hp.mem_iff.mpr hx)
  | some a =>
    have ha : a ∈ L1 := List.mem_of_find?_eq_some h1
    have hpa : p a := List.find?_some h1
    cases h2 : L2.find? p with
    | none =>
      rw [List.find?_eq_none] at h2
      exact absurd hpa (h2 a (hp.mem_iff.mp ha))
    | some b =>
      have hb : b ∈ L1 := hp.mem_iff.mpr (List.mem_of_find?_eq_some h2)
      have hpb : p b := List.find?_some h2
      rw [hu a ha b hb hpa hpb]

/-- A schedule with no watcher tick never changes the observed state. -/
lemma run_no_ticks (next : ServingState → ServingState) (s : ServingState)
    (es : List Event) (h : numTicks es = 0) :
    ∀ o ∈ run next s es, o = s := by
  induction es with
  | nil => intro o ho; cases ho
  | cons e rest ih =>
    cases e with
    | tickEv => simp [numTicks] at h
    | reqEv =>
      intro o ho
      rw [show run next s (Event.reqEv :: rest) = s :: run next s rest from rfl] at ho
      rcases List.mem_cons.mp ho with h1 | h1
      · exact h1
      · exact ih (by simpa [numTicks] using h) o h1

/-- C1 (counterexample): the claim as stated is false at the listing
containing only the name index5.html followed by one newline character.
No entry of that listing matches the exact stem-digits-extension pattern
with nothing else, yet find_highest_version_file does not return none: it
returns that entry, because the end anchor of the compiled regex also
matches just before a single trailing newline. -/
theorem find_newline_entry_counterexample :
    matchesExactPattern ("index5.html\n") = false ∧
    find_highest_version_file ["index5.html\n"] = some ("index5.html\n") := by
  decide

/-- C1 (amended): for every directory listing, find_highest_version_file
returns the first entry in listing order, among those accepted by the
compiled regex (stem, one or more digits, extension, optionally one
trailing newline accepted by the end anchor), whose parsed integer equals
the maximum parsed integer over all accepted entries, comparing
numerically; it returns none when no entry is accepted, and with equal
maximum values the first encountered in listing order is kept. -/
theorem find_highest_version_file_correct (L : List String) :
    find_highest_version_file L = selectHighestVersionSpec L :=
  find_eq_spec L

/-- C8: for every listing in which all matching entries attaining the
maximum parsed version are the same filename, permuting the listing does
not change the result of find_highest_version_file. -/
theorem find_highest_version_file_perm_invariant (L1 L2 : List String)
    (hp : L1.Perm L2)
    (hu : ∀ f ∈ L1, ∀ g ∈ L1,
      version f = maxVer L1 → version g = maxVer L1 → f = g) :
    find_highest_version_file L1 = find_highest_version_file L2 := by
  rw [find_eq_spec, find_eq_spec]
  unfold selectHighestVersionSpec
  rw [← maxVer_perm hp]
  cases hM : maxVer L1 with
  | none => rfl
  | some M =>
    exact find?_perm_of_unique hp (fun a ha b hb hpa hpb =>
      hu a ha b hb (by rw [hM]; simpa using hpa)
        (by rw [hM]; simpa using hpb))

/-- C8 witness: at a concrete two-entry listing with a unique maximum the
selector is insensitive to listing order, and numeric comparison makes
index10.html beat index9.html in both orders. -/
theorem find_highest_version_file_perm_invariant_witness :
    find_highest_version_file ["index9.html", "index10.html"] =
      find_highest_version_file ["index10.html", "index9.html"] :=
  find_highest_version_file_perm_invariant _ _
    (List.Perm.swap ("index10.html") ("index9.html") []) (by decide)

/-- C9: every digit group captured by the regex parses successfully as a
non-negative integer, so the defensive ValueError branch of
find_highest_version_file is unreachable. -/
theorem regex_group_always_parses (s : String) (g : List Char)
    (h : reMatchGroup s.data = some g) : (pyInt g).isSome := by
  unfold reMatchGroup at h
  cases hdp : dropPrefixChars filePrefixChars s.data with
  | none => rw [hdp] at h; cases h
  | some rest =>
    rw [hdp] at h
    simp only at h
    by_cases hds : rest.takeWhile Char.isDigit = []
    · rw [if_pos hds] at h; cases h
    · rw [if_neg hds] at h
      by_cases htl : rest.dropWhile Char.isDigit = fileSuffixChars ∨
          rest.dropWhile Char.isDigit = fileSuffixChars ++ ['\n']
      · rw [if_pos htl] at h
        cases h
        unfold pyInt
        rw [if_pos ⟨hds, List.all_takeWhile⟩]
        rfl
      · rw [if_neg htl] at h; cases h

/-- C9 witness: at the concrete filename index12.html the regex captures
the digit group and that group parses. -/
theorem regex_group_always_parses_witness :
    (pyInt (['1', '2'] : List Char)).isSome :=
  regex_group_always_parses ("index12.html") ['1', '2'] (by decide)

/-- C3: on every watcher tick where the selector returns a filename
different from the stored target and that file has a modification time on
disk, the tick replaces target_file with the new name and
current_file_mtime with that modification time together, in the single
locked region, printing the reload notification.  The hypotheses compare
filenames for inequality only — no assumption relates their version
numbers, so the switch also fires when the two names parse to the same
version. -/
theorem tick_switch_updates_both_fields (L : List String)
    (fs : String → Option Nat) (s : ServingState) (nf : String) (m : Nat)
    (hfind : find_highest_version_file L = some nf)
    (hne : nf ≠ s.target_file)
    (hmt : fs nf = some m) :
    tick L fs s = Except.ok
      ({ target_file := nf, current_file_mtime := m },
       ["New file detected: " ++ nf ++ ". Reloading..."]) := by
  simp only [tick, hfind]
  rw [if_neg hne]
  simp only [getmtime, hmt]

/-- C3 witness: a concrete switch where the new name index07.html parses
to the same version number 7 as the stored target index7.html, showing
the decision is taken on name inequality, not version inequality. -/
theorem tick_switch_updates_both_fields_witness :
    tick ["index07.html"] (fun f => if f = "index07.html" then some 9 else none)
      ⟨"index7.html", 3⟩ =
    Except.ok (⟨"index07.html", 9⟩,
      ["New file detected: index07.html. Reloading..."]) :=
  tick_switch_updates_both_fields _ _ _ ("index07.html") 9
    (by decide) (by decide) (by simp)

/-- C4: on a watcher tick where the selector returns exactly the stored
target and that file has modification time m on disk, the tick keeps
target_file unchanged and updates only current_file_mtime, printing the
modified notification, when m differs from the stored value; when m
matches, neither field changes and nothing is printed. -/
theorem tick_same_file_refresh (L : List String) (fs : String → Option Nat)
    (s : ServingState) (m : Nat)
    (hfind : find_highest_version_file L = some s.target_file)
    (hmt : fs s.target_file = some m) :
    tick L fs s =
      if m ≠ s.current_file_mtime then
        Except.ok ({ target_file := s.target_file, current_file_mtime := m },
          ["File " ++ s.target_file ++ " has been modified. Reloading..."])
      else Except.ok (s, []) := by
  simp only [tick, hfind]
  rw [if_pos trivial]
  unfold tickCheckModified
  rw [show path_exists fs s.target_file = true from by simp [path_exists, hmt]]
  rw [if_pos rfl]
  rw [show getmtime fs s.target_file = Except.ok m from by simp [getmtime, hmt]]

/-- C4 witness: a concrete refresh tick where the stored time 0 differs
from the on-disk time 5 updates only the stored time. -/
theorem tick_same_file_refresh_witness :
    tick ["index1.html"] (fun f => if f = "index1.html" then some 5 else none)
      ⟨"index1.html", 0⟩ =
    Except.ok (⟨"index1.html", 5⟩,
      ["File index1.html has been modified. Reloading..."]) := by
  rw [tick_same_file_refresh _ _ _ 5 (by decide) (by simp)]
  simp

/-- C5: the watcher loop body has no exception handling, so a single
failed check terminates it.  Concretely, when the listing taken by
os.listdir contains index9.html but the file is gone by the time
os.path.getmtime is called (a transient race the claim says must be
survived as a no-change tick), the tick raises FileNotFoundError instead
of completing, and the uncaught exception ends the while loop. -/
theorem tick_error_on_vanished_new_file :
    tick ["index9.html"] (fun _ => none) ⟨"index1.html", 0⟩ =
      Except.error ("FileNotFoundError: " ++ "index9.html") := by
  rfl

/-- C2: under one watcher tick and any number of root-path requests, run
as atomic critical sections of the single shared lock in any interleaving
order, every request observes either the full pre-switch pair or the full
post-switch pair of (target_file, current_file_mtime), never a torn
mixture. -/
theorem request_never_observes_torn_pair (L : List String)
    (fs : String → Option Nat) (s0 s1 : ServingState) (notes : List String)
    (sched : List Event) (obs : ServingState)
    (htick : tick L fs s0 = Except.ok (s1, notes))
    (hone : numTicks sched = 1)
    (hobs : obs ∈ run (tickUpdate L fs) s0 sched) :
    obs = s0 ∨ obs = s1 := by
  induction sched with
  | nil => cases hobs
  | cons e rest ih =>
    cases e with
    | reqEv =>
      rw [show run (tickUpdate L fs) s0 (Event.reqEv :: rest) =
            s0 :: run (tickUpdate L fs) s0 rest from rfl] at hobs
      rcases List.mem_cons.mp hobs with h1 | h1
      · exact Or.inl h1
      · exact ih (by simpa [numTicks] using hone) h1
    | tickEv =>
      rw [show run (tickUpdate L fs) s0 (Event.tickEv :: rest) =
            run (tickUpdate L fs) (tickUpdate L fs s0) rest from rfl] at hobs
      have hrest : numTicks rest = 0 := by
        simp [numTicks] at hone; omega
      have hup : tickUpdate L fs s0 = s1 := by
        unfold tickUpdate; rw [htick]
      rw [hup] at hobs
      exact Or.inr (run_no_ticks _ _ _ hrest obs hobs)

/-- C2 witness: in the concrete schedule request-tick-request around a
switch from (index1.html, 0) to (index2.html, 7), the second request
observes the full post-switch pair. -/
theorem request_never_observes_torn_pair_witness :
    (⟨"index2.html", 7⟩ : ServingState) = ⟨"index1.html", 0⟩ ∨
    (⟨"index2.html", 7⟩ : ServingState) = ⟨"index2.html", 7⟩ :=
  request_never_observes_torn_pair ["index2.html"]
    (fun f => if f = "index2.html" then some 7 else none)
    ⟨"index1.html", 0⟩ ⟨"index2.html", 7⟩
    ["New file detected: index2.html. Reloading..."]
    [Event.reqEv, Event.tickEv, Event.reqEv] ⟨"index2.html", 7⟩
    (by rfl) (by rfl) (by decide)

lemma do_GET_fst (fs : String → Option Nat) (s : ServingState) (p : String) :
    (do_GET fs s p).1 = s := by
  unfold do_GET
  split <;> (try split) <;> rfl

/-- C6: when the stored target does not exist on disk, every root-path
request receives a 404 response whose message names the missing target,
the handler completes normally, and the same response repeats for every
subsequent root-path request as long as the state and filesystem are
unchanged. -/
theorem missing_target_yields_not_found (fs : String → Option Nat)
    (s : ServingState) (k : Nat)
    (h : fs s.target_file = none) :
    serveMany fs s (List.replicate k ("/")) =
      (s, List.replicate k
        (Response.notFound ("File Not Found: " ++ s.target_file))) := by
  have hg : do_GET fs s ("/") =
      (s, "/", Response.notFound ("File Not Found: " ++ s.target_file)) := by
    unfold do_GET
    rw [if_pos rfl]
    rw [show path_exists fs s.target_file = false from by simp [path_exists, h]]
    simp
  induction k with
  | zero => rfl
  | succ n ih =>
    rw [List.replicate_succ, List.replicate_succ]
    rw [show serveMany fs s ("/" :: List.replicate n ("/")) =
        ((serveMany fs (do_GET fs s ("/")).1 (List.replicate n ("/"))).1,
         (do_GET fs s ("/")).2.2 ::
           (serveMany fs (do_GET fs s ("/")).1 (List.replicate n ("/"))).2) from rfl]
    rw [hg]
    simp [ih]

/-- C6 witness: with an empty filesystem and stored target index1.html,
two successive root-path requests both receive the 404 naming the missing
file, and the state is unchanged. -/
theorem missing_target_yields_not_found_witness :
    serveMany (fun _ => none) ⟨"index1.html", 0⟩ (List.replicate 2 ("/")) =
      (⟨"index1.html", 0⟩,
       List.replicate 2
         (Response.notFound ("File Not Found: " ++ "index1.html"))) :=
  missing_target_yields_not_found (fun _ => none) ⟨"index1.html", 0⟩ 2 rfl

/-- C10: handling GET requests never writes the shared serving state:
a single request leaves the pair (target_file, current_file_mtime)
untouched, and so does any sequence of requests with no intervening
watcher tick. -/
theorem requests_never_write_serving_state (fs : String → Option Nat)
    (s : ServingState) (paths : List String) :
    (serveMany fs s paths).1 = s ∧ ∀ p, (do_GET fs s p).1 = s := by
  refine ⟨?_, fun p => do_GET_fst fs s p⟩
  induction paths with
  | nil => rfl
  | cons p ps ih =>
    show (serveMany fs (do_GET fs s p).1 ps).1 = s
    rw [do_GET_fst]
    exact ih

/-- C7: at startup, when no file matches the pattern, the process prints
the diagnostic and exits with code 1 without binding the server; when a
file is found and an interrupt arrives during serving, the process exits
with code 0 after the shutdown notice. -/
theorem startup_and_shutdown_exit_codes :
    (∀ (L : List String) (fs : String → Option Nat) (intr : Bool),
      find_highest_version_file L = none →
      mainRun L fs intr = Except.ok (MainOutcome.exited 1 false,
        ["Error: Could not find any files matching index*.html in the current directory."])) ∧
    (∀ (L : List String) (fs : String → Option Nat) (f : String) (m : Nat),
      find_highest_version_file L = some f → fs f = some m →
      mainRun L fs true = Except.ok (MainOutcome.exited 0 true,
        ["Serving " ++ f ++ " at http://localhost:8000",
         "Press Ctrl+C to stop the server.", "Server stopped."])) := by
  constructor
  · intro L fs intr h
    unfold mainRun
    rw [h]
  · intro L fs f m hf hm
    simp only [mainRun, hf]
    rw [show getmtime fs f = Except.ok m from by simp [getmtime, hm]]
    simp

/-- C7 witness: an empty listing exits with code 1 unbound, and a served
file interrupted exits with code 0. -/
theorem startup_and_shutdown_exit_codes_witness :
    mainRun [] (fun _ => none) false = Except.ok (MainOutcome.exited 1 false,
      ["Error: Could not find any files matching index*.html in the current directory."]) ∧
    mainRun ["index1.html"] (fun f => if f = "index1.html" then some 3 else none) true =
      Except.ok (MainOutcome.exited 0 true,
        ["Serving " ++ "index1.html" ++ " at http://localhost:8000",
         "Press Ctrl+C to stop the server.", "Server stopped."]) :=
  ⟨startup_and_shutdown_exit_codes.1 [] (fun _ => none) false (by decide),
   startup_and_shutdown_exit_codes.2 ["index1.html"] _ ("index1.html") 3
     (by decide) (by simp)⟩

end SatSim

-- Concrete evaluations of the embedded matcher on the spec test vectors.
example : SatSim.version ("index10.html") = some 10 := by decide
example : SatSim.version ("index9.html") = some 9 := by decide
example : SatSim.version ("index1.htmlx") = none := by decide
example : SatSim.version ("indexA.html") = none := by decide
example : SatSim.version ("index5.html\n") = some 5 := by decide
example : SatSim.version ("index5.html\n\n") = none := by decide
example : SatSim.find_highest_version_file ["index9.html", "index10.html"] = some "index10.html" := by decide
example : SatSim.find_highest_version_file [] = none := by decide
example : SatSim.find_highest_version_file ["foo.txt"] = none := by decide
